import Mathlib

/-!
Shallow embedding of the SBOM rewriting engine of `release-service-utils`
(`sbom/sbomlib.py`, `sbom/handlers/spdx_2_3.py`, `sbom/handlers/__init__.py`,
`sbom/update_component_sbom.py`), together with theorems settling the claims
about it.

Modelling conventions:
- Python dictionaries holding the documents become Lean structures; in-place
  mutation becomes a function returning the new document; a raised exception
  becomes an `Err` value paired with the document state at the moment of the
  raise (the handler mutates in place, so a partially rewritten document is
  observable on some error paths).
- purl strings are modelled as a `Purl` structure: every purl the handler
  builds has type `oci`, a name, a version and the qualifiers
  `repository_url`, optional `arch` and optional `tag`; parsing a purl back
  (`get_purl_arch` / `get_purl_digest`) is projection.
- `str.split(sep)` on one-character separators is modelled by `strSplit`,
  structural on the character list, so concrete instances evaluate.
-/

namespace Sbom

/-- `splitOnChar sep cs` splits a character list at every occurrence of `sep`,
mirroring Python `str.split` for a single-character separator. -/
def splitOnChar (sep : Char) : List Char → List (List Char)
  | [] => [[]]
  | c :: rest =>
    match splitOnChar sep rest with
    | [] => [[]]
    | g :: gs => if c = sep then [] :: g :: gs else (c :: g) :: gs

/-- Python `s.split(sep)` for a one-character separator `sep`. -/
def strSplit (sep : Char) (s : String) : List String :=
  (splitOnChar sep s.data).map (fun cs => String.mk cs)

/-- `sbomlib.Image`: a content-addressed single-architecture manifest
reference. -/
structure Image where
  digest : String
deriving DecidableEq, Repr

/-- `sbomlib.IndexImage`: a multi-architecture manifest with child images. -/
structure IndexImage where
  digest : String
  children : List Image
deriving DecidableEq, Repr

/-- The `Union[Image, IndexImage]` type used throughout `sbomlib`. -/
inductive ImageOrIndex where
  | image : Image → ImageOrIndex
  | index : IndexImage → ImageOrIndex
deriving DecidableEq, Repr

/-- Matcher for `-[0-9]{8,}` (the tail of `Component.unique_tag_regex`):
a dash followed by at least eight digits.  `re.match` only anchors at the
start, so trailing characters are allowed. -/
def matchDashDigits8 (cs : List Char) : Bool :=
  match cs with
  | '-' :: rest => (rest.takeWhile Char.isDigit).length ≥ 8
  | _ => false

/-- Matcher for `(\.[0-9]+)?-[0-9]{8,}`: the optional patch-version group is
tried first (greedy), falling back to the bare dash alternative. -/
def matchOptPatch (cs : List Char) : Bool :=
  (match cs with
    | '.' :: rest =>
      let ds := rest.takeWhile Char.isDigit
      decide (1 ≤ ds.length) && matchDashDigits8 (rest.drop ds.length)
    | _ => false)
  || matchDashDigits8 cs

/-- Matcher for `[0-9]+\.[0-9]+(\.[0-9]+)?-[0-9]{8,}`. -/
def matchCore (cs : List Char) : Bool :=
  let d1 := cs.takeWhile Char.isDigit
  if d1.length = 0 then false
  else
    match cs.drop d1.length with
    | '.' :: r2 =>
      let d2 := r2.takeWhile Char.isDigit
      if d2.length = 0 then false
      else matchOptPatch (r2.drop d2.length)
    | _ => false

/-- Matcher for `v?[0-9]+\.[0-9]+(\.[0-9]+)?-[0-9]{8,}`: both alternatives of
the optional `v` are tried, as a backtracking regex engine would. -/
def matchV (cs : List Char) : Bool :=
  (match cs with
    | 'v' :: rest => matchCore rest
    | _ => false)
  || matchCore cs

/-- `Component.unique_tag_regex` = `(rhel-)?v?[0-9]+\.[0-9]+(\.[0-9]+)?-[0-9]{8,}`,
applied with `re.match` (anchored at the start of the string only). -/
def matchesUniqueTag (s : String) : Bool :=
  (match s.data with
    | 'r' :: 'h' :: 'e' :: 'l' :: '-' :: rest => matchV rest
    | _ => false)
  || matchV s.data

/-- `sbomlib.Component`: repository, resolved image and release tags. -/
structure Component where
  repository : String
  image : ImageOrIndex
  tags : List String
deriving DecidableEq, Repr

/-- `Component.unique_tag`: the first tag matching `unique_tag_regex`, or
`none`. -/
def Component.unique_tag (c : Component) : Option String :=
  c.tags.find? matchesUniqueTag

/-- A package URL as built by `sbomlib.construct_purl`: type `oci`, with the
`repository_url` qualifier always present and `arch`/`tag` optional. -/
structure Purl where
  name : String
  version : String
  repository_url : String
  arch : Option String
  tag : Option String
deriving DecidableEq, Repr

/-- `sbomlib.construct_purl(repository, digest, arch=None, tag=None)`. -/
def construct_purl (repository digest : String)
    (arch : Option String := none) (tag : Option String := none) : Purl :=
  { name := (strSplit '/' repository).getLastD ""
    version := digest
    repository_url := repository
    arch := arch
    tag := tag }

/-- `sbomlib.get_purl_arch`: the `arch` qualifier of a purl, if present. -/
def get_purl_arch (p : Purl) : Option String :=
  p.arch

/-- `sbomlib.get_purl_digest`: the version component of a purl. -/
def get_purl_digest (p : Purl) : String :=
  p.version

/-- `sbomlib.make_reference(repository, image_digest)` =
`f"{repository}@{image_digest}"`. -/
def make_reference (repository image_digest : String) : String :=
  repository ++ "@" ++ image_digest

/-- `sbomlib.without_sha_header`: `digest.removeprefix("sha256:")`. -/
def without_sha_header (digest : String) : String :=
  match digest.data with
  | 's' :: 'h' :: 'a' :: '2' :: '5' :: '6' :: ':' :: rest => String.mk rest
  | _ => digest

/-- One entry of an SPDX package's `checksums` list. -/
structure Checksum where
  algorithm : String
  checksumValue : String
deriving DecidableEq, Repr

/-- One entry of an SPDX package's `externalRefs` list. -/
structure ExternalRef where
  referenceCategory : String
  referenceType : String
  referenceLocator : Purl
deriving DecidableEq, Repr

/-- An SPDX package: the fields the handler reads or writes, plus an opaque
remainder standing for all untouched fields. -/
structure Package where
  checksums : Option (List Checksum)
  externalRefs : List ExternalRef
  otherFields : String
deriving DecidableEq, Repr

/-- An SPDX-2.3 document: the fields the handler reads or writes, plus an
opaque remainder standing for all untouched fields. -/
structure Document where
  spdxVersion : String
  name : String
  packages : List Package
  otherFields : String
deriving DecidableEq, Repr

/-- The exceptions the SPDX-2.3 handler can raise:
`versionMismatch` models the `ValueError` of the version check (the spec's
`VersionMismatch`), `packageNotFound` the `SBOMError` of the checksum lookup
(the spec's `PackageNotFound`), and `refAccess` the `KeyError`/`IndexError`
of `package["externalRefs"][i]` on a package without enough references. -/
inductive Err where
  | versionMismatch
  | packageNotFound
  | refAccess
deriving DecidableEq, Repr

/-- `SPDXVersion23.supported_version`. -/
def supported_version : String := "SPDX-2.3"

/-- `SPDXVersion23._make_purl_ref`. -/
def mk_purl_ref (purl : Purl) : ExternalRef :=
  { referenceCategory := "PACKAGE-MANAGER"
    referenceType := "purl"
    referenceLocator := purl }

/-- `SPDXVersion23._extract_sha256_checksum`: the value of the first checksum
entry with algorithm `SHA256`, if any. -/
def extract_sha256_checksum (p : Package) : Option String :=
  match p.checksums with
  | none => none
  | some cs => (cs.find? (fun c => c.algorithm == "SHA256")).map Checksum.checksumValue

/-- `SPDXVersion23._find_image_package`: index of the first package whose
first `SHA256` checksum equals the digest with its `sha256:` header
stripped.  (The Python function returns the package dict itself; since it is
then mutated inside the list, the model returns its position.) -/
def find_image_package (pkgs : List Package) (digest : String) : Option Nat :=
  match pkgs with
  | [] => none
  | p :: rest =>
    if extract_sha256_checksum p = some (without_sha_header digest) then some 0
    else (find_image_package rest digest).map (· + 1)

/-- `SPDXVersion23._is_relevant`: a package is updated in the index variant
iff `"sha256:" + checksum` occurs among the child digests of the index. -/
def is_relevant (p : Package) (idx : IndexImage) : Bool :=
  match extract_sha256_checksum p with
  | none => false
  | some c => (idx.children.map Image.digest).contains ("sha256:" ++ c)

/-- `SPDXVersion23._get_updated_index_purl`: reads `externalRefs[0]` of the
package, keeps its `arch` qualifier, and rebuilds the purl from the
repository and the index digest. -/
def get_updated_index_purl (p : Package) (repository index_digest : String)
    (tag : Option String) : Except Err Purl :=
  match p.externalRefs[0]? with
  | none => Except.error Err.refAccess
  | some r =>
    Except.ok (construct_purl repository index_digest
      (get_purl_arch r.referenceLocator) tag)

/-- `SPDXVersion23._get_updated_multiarch_image_purl`: reads
`externalRefs[1]` of the package, keeps its purl version (the child digest),
and rebuilds the purl without an arch qualifier. -/
def get_updated_multiarch_image_purl (p : Package) (repository : String)
    (tag : Option String) : Except Err Purl :=
  match p.externalRefs[1]? with
  | none => Except.error Err.refAccess
  | some r =>
    Except.ok (construct_purl repository (get_purl_digest r.referenceLocator)
      none tag)

/-- `SPDXVersion23._get_updated_image_purl`: reads `externalRefs[0]` of the
package, keeps its purl version, and rebuilds the purl without an arch
qualifier. -/
def get_updated_image_purl (p : Package) (repository : String)
    (tag : Option String) : Except Err Purl :=
  match p.externalRefs[0]? with
  | none => Except.error Err.refAccess
  | some r =>
    Except.ok (construct_purl repository (get_purl_digest r.referenceLocator)
      none tag)

/-- Body of the `for package in sbom["packages"]` loop of
`_update_index_image_sbom` for one relevant package: the new reference list
is the updated index purl followed by the updated arch-specific purl. -/
def update_relevant_package (c : Component) (idx : IndexImage) (p : Package) :
    Except Err Package :=
  match get_updated_index_purl p c.repository idx.digest c.unique_tag with
  | Except.error e => Except.error e
  | Except.ok indexPurl =>
    match get_updated_multiarch_image_purl p c.repository c.unique_tag with
    | Except.error e => Except.error e
    | Except.ok imagePurl =>
      Except.ok { p with externalRefs := [mk_purl_ref indexPurl, mk_purl_ref imagePurl] }

/-- The `for package in sbom["packages"]` loop of `_update_index_image_sbom`:
relevant packages are rewritten in order; an exception aborts the loop,
leaving the current and the remaining packages untouched. -/
def update_packages (c : Component) (idx : IndexImage) :
    List Package → Option Err × List Package
  | [] => (none, [])
  | p :: rest =>
    if is_relevant p idx then
      match update_relevant_package c idx p with
      | Except.error e => (some e, p :: rest)
      | Except.ok p' =>
        let res := update_packages c idx rest
        (res.1, p' :: res.2)
    else
      let res := update_packages c idx rest
      (res.1, p :: res.2)

/-- `SPDXVersion23._update_index_image_sbom`, with in-place mutation made
explicit: the result pairs the raised exception (if any) with the document
state at that moment.  The dead `none` branch after a successful
`find_image_package` can never be taken (the returned index is in range). -/
def update_index_image_sbom (c : Component) (idx : IndexImage)
    (sbom : Document) : Option Err × Document :=
  if sbom.spdxVersion = supported_version then
    let sbom1 : Document := { sbom with name := make_reference c.repository idx.digest }
    match find_image_package sbom1.packages idx.digest with
    | none => (some Err.packageNotFound, sbom1)
    | some i =>
      match sbom1.packages[i]? with
      | none => (some Err.packageNotFound, sbom1)
      | some p =>
        let indexPurl := construct_purl c.repository idx.digest none c.unique_tag
        let pkgs1 := sbom1.packages.set i { p with externalRefs := [mk_purl_ref indexPurl] }
        let res := update_packages c idx pkgs1
        (res.1, { sbom1 with packages := res.2 })
  else (some Err.versionMismatch, sbom)

/-- `SPDXVersion23._update_image_sbom`, with in-place mutation made
explicit, in the same style as `update_index_image_sbom`. -/
def update_image_sbom (c : Component) (img : Image) (sbom : Document) :
    Option Err × Document :=
  if sbom.spdxVersion = supported_version then
    let sbom1 : Document := { sbom with name := make_reference c.repository img.digest }
    match find_image_package sbom1.packages img.digest with
    | none => (some Err.packageNotFound, sbom1)
    | some i =>
      match sbom1.packages[i]? with
      | none => (some Err.packageNotFound, sbom1)
      | some p =>
        match get_updated_image_purl p c.repository c.unique_tag with
        | Except.error e => (some e, sbom1)
        | Except.ok purl =>
          (none, { sbom1 with
            packages := sbom1.packages.set i { p with externalRefs := [mk_purl_ref purl] } })
  else (some Err.versionMismatch, sbom)

/-- `SPDXVersion23.update_sbom`: dispatch on index image versus leaf image. -/
def update_sbom (c : Component) (img : ImageOrIndex) (sbom : Document) :
    Option Err × Document :=
  match img with
  | ImageOrIndex.index idx => update_index_image_sbom c idx sbom
  | ImageOrIndex.image i => update_image_sbom c i sbom

/-- Joins path segments back with `/`; inverse of `strSplit '/'` on its
output.  `joinSlash (segs.dropLast)` is Python `current_ref.rsplit("/", 1)[0]`. -/
def joinSlash : List String → String
  | [] => ""
  | [s] => s
  | s :: rest => s ++ "/" ++ joinSlash rest

/-- The successive values of `current_ref` in the lookup loop of
`sbomlib.get_oci_auth_file`, longest first: the loop starts from the full
path and strips one trailing path segment per iteration
(`current_ref.rsplit("/", 1)[0]`), stopping after the single-segment
(bare registry) candidate (`if "/" not in current_ref: break`).  Structured
on the reversed segment list so that it is structural recursion. -/
def candidateSegsRev : List String → List (List String)
  | [] => []
  | s :: rest => (s :: rest).reverse :: candidateSegsRev rest

/-- The candidate store keys probed by the lookup loop, longest first. -/
def candidate_keys (segs : List String) : List String :=
  (candidateSegsRev segs.reverse).map joinSlash

/-- The lookup loop of `sbomlib.get_oci_auth_file`: the first candidate key
present in the `auths` table wins (longest-prefix match by construction). -/
def first_hit (auths : List (String × String)) : List String → Option String
  | [] => none
  | k :: ks =>
    match List.lookup k auths with
    | some token => some token
    | none => first_hit auths ks

/-- `sbomlib.get_oci_auth_file(reference, auth, fp)`, with the filesystem
abstracted away: `auths` is the `"auths"` table of the already-parsed
credential store, and the result pairs the returned boolean with the
`"auths"` table of the JSON document written to `fp`
(`{"auths": {registry: token}}` on a hit, `{"auths": {}}` otherwise).
The digest suffix is stripped at the first `@` (`reference.split("@", 1)[0]`)
and the registry is the part before the first `/` (`ref.split("/", 1)[0]`). -/
def get_oci_auth_file (reference : String) (auths : List (String × String)) :
    Bool × List (String × String) :=
  let ref := (strSplit '@' reference).headD ""
  let registry := (strSplit '/' ref).headD ""
  match first_hit auths (candidate_keys (strSplit '/' ref)) with
  | some token => (true, [(registry, token)])
  | none => (false, [])

/-- `sbomlib.get_oci_auth_file` one level up: `config.get("auths", {})` —
the parsed credential store may lack the `"auths"` key entirely, in which
case the empty table is used. -/
def get_oci_auth_file_of_config (reference : String)
    (config_auths : Option (List (String × String))) :
    Bool × List (String × String) :=
  get_oci_auth_file reference (config_auths.getD [])

/-- One entry of the `manifests` list of a fetched index manifest; only the
`digest` field is read. -/
structure SubManifest where
  digest : String
deriving DecidableEq, Repr

/-- A fetched OCI manifest, as read by `sbomlib.construct_image`: its
`mediaType`, and for index manifests the listed sub-manifests. -/
structure Manifest where
  mediaType : String
  manifests : List SubManifest
deriving DecidableEq, Repr

/-- The failure of `sbomlib.construct_image` on an unrecognized media type:
the `assert False` at the end of the function (the spec's
`UnsupportedMediaType`). -/
inductive MediaErr where
  | unsupportedMediaType
deriving DecidableEq, Repr

/-- `sbomlib.construct_image`, with the network fetch abstracted away: the
already-fetched manifest for `image_digest` is passed in.  Single-manifest
media types yield a leaf `Image`; index media types yield an `IndexImage`
whose children are the listed sub-manifest digests in order, with no further
fetch; anything else is fatal. -/
def construct_image (image_digest : String) (manifest : Manifest) :
    Except MediaErr ImageOrIndex :=
  if manifest.mediaType = "application/vnd.oci.image.manifest.v1+json"
      ∨ manifest.mediaType = "application/vnd.docker.distribution.manifest.v2+json" then
    Except.ok (ImageOrIndex.image { digest := image_digest })
  else if manifest.mediaType = "application/vnd.oci.image.index.v1+json"
      ∨ manifest.mediaType = "application/vnd.docker.distribution.manifest.list.v2+json" then
    Except.ok (ImageOrIndex.index
      { digest := image_digest
        children := manifest.manifests.map (fun s => { digest := s.digest }) })
  else Except.error MediaErr.unsupportedMediaType

/-- The discriminant fields a loaded SBOM document may carry, as read by the
two dispatch sites (`handlers.get_handler` and
`update_component_sbom.update_sbom`); a `none` field models an absent key
(`dict.get` returning `None`). -/
structure RawSbom where
  spdxVersion : Option String
  bomFormat : Option String
  specVersion : Option String
deriving DecidableEq, Repr

/-- Outcome of `handlers.get_handler`: the SPDX-2.3 handler class, the
`NotImplementedError` raised for CycloneDX 1.6, or `None`. -/
inductive HandlerResult where
  | spdx23
  | notImplementedError
  | noHandler
deriving DecidableEq, Repr

/-- `handlers.get_handler`: SPDX-2.3 documents get the SPDX handler;
CycloneDX documents raise `NotImplementedError` only when `specVersion` is
exactly `"1.6"`; everything else (including CycloneDX with any other
`specVersion`) returns `None`. -/
def get_handler (sbom : RawSbom) : HandlerResult :=
  if sbom.spdxVersion = some "SPDX-2.3" then HandlerResult.spdx23
  else if sbom.bomFormat = some "CycloneDX" ∧ sbom.specVersion = some "1.6" then
    HandlerResult.notImplementedError
  else HandlerResult.noHandler

/-- Outcome of the inline dispatch in `update_component_sbom.update_sbom`:
the SPDX-2.3 handler runs, or the CycloneDX branch silently does nothing
(`# TODO: implement` / `pass`) and the document is written back unchanged,
or `SBOMError` is raised. -/
inductive DispatchOutcome where
  | spdxHandled
  | silentNoOp
  | sbomError
deriving DecidableEq, Repr

/-- The dialect dispatch of `update_component_sbom.update_sbom`:
`spdxVersion == "SPDX-2.3"` runs the SPDX handler; otherwise
`bomFormat == "CycloneDX"` falls through a `pass` (silent no-op, document
still written to the destination unchanged); otherwise `SBOMError`. -/
def dispatch_update_sbom (sbom : RawSbom) : DispatchOutcome :=
  if sbom.spdxVersion = some "SPDX-2.3" then DispatchOutcome.spdxHandled
  else if sbom.bomFormat = some "CycloneDX" then DispatchOutcome.silentNoOp
  else DispatchOutcome.sbomError

/-! ## Helper lemmas -/

theorem set_self_of_getElem {α : Type} (l : List α) (i : Nat) (v : α)
    (h : l[i]? = some v) : l.set i v = l := by
  induction l generalizing i with
  | nil => simp at h
  | cons x xs ih =>
    cases i with
    | zero => simp at h; simp [h]
    | succ n => simp only [List.getElem?_cons_succ] at h; simp [ih n h]

theorem rewriting_keeps_checksum (p : Package) (rs : List ExternalRef) :
    extract_sha256_checksum { p with externalRefs := rs } = extract_sha256_checksum p := by
  cases p; rfl

theorem find_image_package_congr (pkgs₁ pkgs₂ : List Package) (digest : String)
    (h : pkgs₁.map extract_sha256_checksum = pkgs₂.map extract_sha256_checksum) :
    find_image_package pkgs₁ digest = find_image_package pkgs₂ digest := by
  induction pkgs₁ generalizing pkgs₂ with
  | nil => cases pkgs₂ <;> simp_all
  | cons p rest ih =>
    cases pkgs₂ with
    | nil => simp at h
    | cons q rest₂ =>
      simp only [List.map_cons, List.cons.injEq] at h
      simp only [find_image_package, h.1, ih rest₂ h.2]

theorem find_image_package_mem (pkgs : List Package) (digest : String) (i : Nat)
    (h : find_image_package pkgs digest = some i) :
    ∃ p, pkgs[i]? = some p ∧
      extract_sha256_checksum p = some (without_sha_header digest) := by
  induction pkgs generalizing i with
  | nil => simp [find_image_package] at h
  | cons p rest ih =>
    by_cases hc : extract_sha256_checksum p = some (without_sha_header digest)
    · simp only [find_image_package, if_pos hc, Option.some.injEq] at h
      subst h
      exact ⟨p, by simp, hc⟩
    · simp only [find_image_package, if_neg hc, Option.map_eq_some'] at h
      obtain ⟨j, hj, rfl⟩ := h
      obtain ⟨q, hq, hcq⟩ := ih j hj
      exact ⟨q, by simpa using hq, hcq⟩

theorem update_packages_map_checksum (c : Component) (idx : IndexImage)
    (pkgs : List Package) :
    (update_packages c idx pkgs).2.map extract_sha256_checksum
      = pkgs.map extract_sha256_checksum := by
  induction pkgs with
  | nil => rfl
  | cons p rest ih =>
    simp only [update_packages]
    split
    · cases hup : update_relevant_package c idx p with
      | error e => simp
      | ok p' =>
        have hpp : extract_sha256_checksum p' = extract_sha256_checksum p := by
          unfold update_relevant_package at hup
          cases h0 : get_updated_index_purl p c.repository idx.digest c.unique_tag with
          | error e => simp [h0] at hup
          | ok a =>
            cases h1 : get_updated_multiarch_image_purl p c.repository c.unique_tag with
            | error e => simp [h0, h1] at hup
            | ok b =>
              simp only [h0, h1] at hup
              cases hup
              exact rewriting_keeps_checksum p _
        simp [hpp, ih]
    · simp [ih]

theorem update_packages_untouched (c : Component) (idx : IndexImage)
    (pkgs : List Package) (j : Nat) (p : Package)
    (hnone : (update_packages c idx pkgs).1 = none)
    (hj : pkgs[j]? = some p)
    (hirr : is_relevant p idx = false) :
    (update_packages c idx pkgs).2[j]? = some p := by
  induction pkgs generalizing j with
  | nil => simp at hj
  | cons q rest ih =>
    simp only [update_packages] at hnone ⊢
    by_cases hr : is_relevant q idx
    · simp only [if_pos hr] at hnone ⊢
      cases hup : update_relevant_package c idx q with
      | error e => simp [hup] at hnone
      | ok q' =>
        simp only [hup] at hnone ⊢
        cases j with
        | zero =>
          simp only [List.getElem?_cons_zero, Option.some.injEq] at hj
          subst hj
          rw [hr] at hirr
          exact absurd hirr (by simp)
        | succ n =>
          simp only [List.getElem?_cons_succ] at hj ⊢
          exact ih n hnone hj
    · simp only [if_neg hr] at hnone ⊢
      cases j with
      | zero =>
        simp only [List.getElem?_cons_zero, Option.some.injEq] at hj
        subst hj
        simp
      | succ n =>
        simp only [List.getElem?_cons_succ] at hj ⊢
        exact ih n hnone hj

theorem update_packages_rewritten (c : Component) (idx : IndexImage)
    (pkgs : List Package) (j : Nat) (p : Package)
    (hnone : (update_packages c idx pkgs).1 = none)
    (hj : pkgs[j]? = some p)
    (hrel : is_relevant p idx = true) :
    ∃ r0 r1, p.externalRefs[0]? = some r0 ∧ p.externalRefs[1]? = some r1 ∧
      (update_packages c idx pkgs).2[j]? = some
        { p with externalRefs :=
            [mk_purl_ref (construct_purl c.repository idx.digest
               (get_purl_arch r0.referenceLocator) c.unique_tag),
             mk_purl_ref (construct_purl c.repository
               (get_purl_digest r1.referenceLocator) none c.unique_tag)] } := by
  induction pkgs generalizing j with
  | nil => simp at hj
  | cons q rest ih =>
    simp only [update_packages] at hnone ⊢
    by_cases hr : is_relevant q idx
    · simp only [if_pos hr] at hnone ⊢
      cases hup : update_relevant_package c idx q with
      | error e => simp [hup] at hnone
      | ok q' =>
        simp only [hup] at hnone ⊢
        cases j with
        | zero =>
          simp only [List.getElem?_cons_zero, Option.some.injEq] at hj
          subst hj
          unfold update_relevant_package get_updated_index_purl
            get_updated_multiarch_image_purl at hup
          cases h0 : q.externalRefs[0]? with
          | none => rw [h0] at hup; simp at hup
          | some r0 =>
            rw [h0] at hup
            cases h1 : q.externalRefs[1]? with
            | none => rw [h1] at hup; simp at hup
            | some r1 =>
              rw [h1] at hup
              simp only [Except.ok.injEq] at hup
              exact ⟨r0, r1, rfl, rfl, by simp [← hup]⟩
        | succ n =>
          simp only [List.getElem?_cons_succ] at hj ⊢
          exact ih n hnone hj
    · simp only [if_neg hr] at hnone ⊢
      cases j with
      | zero =>
        simp only [List.getElem?_cons_zero, Option.some.injEq] at hj
        subst hj
        exact absurd hrel hr
      | succ n =>
        simp only [List.getElem?_cons_succ] at hj ⊢
        exact ih n hnone hj

theorem update_packages_fixpoint (c : Component) (idx : IndexImage)
    (pkgs : List Package)
    (h : ∀ p, p ∈ pkgs → is_relevant p idx = true →
      update_relevant_package c idx p = Except.ok p) :
    update_packages c idx pkgs = (none, pkgs) := by
  induction pkgs with
  | nil => rfl
  | cons q rest ih =>
    simp only [update_packages]
    by_cases hr : is_relevant q idx
    · rw [if_pos hr, h q (by simp) hr, ih (fun p hp hrel => h p (by simp [hp]) hrel)]
    · rw [if_neg hr, ih (fun p hp hrel => h p (by simp [hp]) hrel)]

theorem update_index_success_elim (c : Component) (idx : IndexImage)
    (sbom sbom' : Document)
    (h : update_index_image_sbom c idx sbom = (none, sbom')) :
    sbom.spdxVersion = supported_version ∧
    ∃ i p,
      find_image_package sbom.packages idx.digest = some i ∧
      sbom.packages[i]? = some p ∧
      (update_packages c idx (sbom.packages.set i
        { p with externalRefs :=
            [mk_purl_ref (construct_purl c.repository idx.digest none c.unique_tag)] })).1
        = none ∧
      sbom' = { sbom with
        name := make_reference c.repository idx.digest,
        packages := (update_packages c idx (sbom.packages.set i
          { p with externalRefs :=
              [mk_purl_ref (construct_purl c.repository idx.digest none c.unique_tag)] })).2 } := by
  simp only [update_index_image_sbom] at h
  split at h
  case isFalse => simp at h
  case isTrue hv =>
    refine ⟨hv, ?_⟩
    split at h
    case h_1 => simp at h
    case h_2 i hf =>
      split at h
      case h_1 => simp at h
      case h_2 p hp =>
        simp only [Prod.mk.injEq] at h
        exact ⟨i, p, hf, hp, h.1, h.2.symm⟩

theorem update_index_image_sbom_eq (c : Component) (idx : IndexImage)
    (sbom : Document) (i : Nat) (p : Package)
    (hv : sbom.spdxVersion = supported_version)
    (hf : find_image_package sbom.packages idx.digest = some i)
    (hp : sbom.packages[i]? = some p) :
    update_index_image_sbom c idx sbom =
      ((update_packages c idx (sbom.packages.set i
        { p with externalRefs :=
            [mk_purl_ref (construct_purl c.repository idx.digest none c.unique_tag)] })).1,
       { sbom with
         name := make_reference c.repository idx.digest,
         packages := (update_packages c idx (sbom.packages.set i
           { p with externalRefs :=
               [mk_purl_ref (construct_purl c.repository idx.digest none c.unique_tag)] })).2 }) := by
  simp only [update_index_image_sbom, hv, if_pos, hf, hp]

theorem update_image_success_elim (c : Component) (img : Image)
    (sbom sbom' : Document)
    (h : update_image_sbom c img sbom = (none, sbom')) :
    sbom.spdxVersion = supported_version ∧
    ∃ i p r0,
      find_image_package sbom.packages img.digest = some i ∧
      sbom.packages[i]? = some p ∧
      p.externalRefs[0]? = some r0 ∧
      sbom' = { sbom with
        name := make_reference c.repository img.digest,
        packages := sbom.packages.set i
          { p with externalRefs :=
              [mk_purl_ref (construct_purl c.repository
                 (get_purl_digest r0.referenceLocator) none c.unique_tag)] } } := by
  simp only [update_image_sbom] at h
  split at h
  case isFalse => simp at h
  case isTrue hv =>
    refine ⟨hv, ?_⟩
    split at h
    case h_1 => simp at h
    case h_2 i hf =>
      split at h
      case h_1 => simp at h
      case h_2 p hp =>
        unfold get_updated_image_purl at h
        cases h0 : p.externalRefs[0]? with
        | none => rw [h0] at h; simp at h
        | some r0 =>
          rw [h0] at h
          simp only [Prod.mk.injEq] at h
          exact ⟨i, p, r0, hf, hp, h0, h.2.symm⟩

theorem update_image_sbom_eq (c : Component) (img : Image)
    (sbom : Document) (i : Nat) (p : Package) (r0 : ExternalRef)
    (hv : sbom.spdxVersion = supported_version)
    (hf : find_image_package sbom.packages img.digest = some i)
    (hp : sbom.packages[i]? = some p)
    (h0 : p.externalRefs[0]? = some r0) :
    update_image_sbom c img sbom =
      (none, { sbom with
        name := make_reference c.repository img.digest,
        packages := sbom.packages.set i
          { p with externalRefs :=
              [mk_purl_ref (construct_purl c.repository
                 (get_purl_digest r0.referenceLocator) none c.unique_tag)] } }) := by
  simp only [update_image_sbom, hv, if_pos, hf, hp, get_updated_image_purl, h0]

theorem first_hit_none (auths : List (String × String)) (ks : List String)
    (h : ∀ k ∈ ks, List.lookup k auths = none) : first_hit auths ks = none := by
  induction ks with
  | nil => rfl
  | cons k ks ih =>
    simp only [first_hit, h k (by simp)]
    exact ih (fun k' hk' => h k' (by simp [hk']))

/-! ## Claim theorems -/

/-- C5: for every document whose `spdxVersion` differs from `"SPDX-2.3"`,
`updateDocument` — both the index and the leaf-image variant — fails with
the `VersionMismatch` error (the `ValueError` of the version check) and the
document is returned completely unchanged. -/
theorem update_sbom_version_mismatch (c : Component) (img : ImageOrIndex)
    (sbom : Document) (h : sbom.spdxVersion ≠ supported_version) :
    update_sbom c img sbom = (some Err.versionMismatch, sbom) := by
  cases img <;>
    simp only [update_sbom, update_image_sbom, update_index_image_sbom, if_neg h]

/-- Witness for C5 at a concrete SPDX-2.2 document. -/
theorem update_sbom_version_mismatch_witness :
    (Document.mk "SPDX-2.2" "n" [] "o").spdxVersion ≠ supported_version ∧
    update_sbom ⟨"r/a", ImageOrIndex.image ⟨"sha256:aa"⟩, []⟩
        (ImageOrIndex.image ⟨"sha256:aa"⟩) ⟨"SPDX-2.2", "n", [], "o"⟩
      = (some Err.versionMismatch, ⟨"SPDX-2.2", "n", [], "o"⟩) :=
  ⟨by decide, update_sbom_version_mismatch _ _ _ (by decide)⟩

/-- C9: when the SPDX-2.3 document contains no package whose SHA256 checksum
matches the target digest, both variants of `updateDocument` raise
`PackageNotFound` only after already having set the document's `name` to
`"<repository>@<digest>"`; every other field of the document is unchanged at
the moment of the raise, so the operation is not atomic on this error. -/
theorem update_sbom_not_found_after_rename :
    (∀ (c : Component) (idx : IndexImage) (sbom : Document),
      sbom.spdxVersion = supported_version →
      find_image_package sbom.packages idx.digest = none →
      update_index_image_sbom c idx sbom =
        (some Err.packageNotFound,
         { sbom with name := make_reference c.repository idx.digest }))
    ∧ (∀ (c : Component) (img : Image) (sbom : Document),
      sbom.spdxVersion = supported_version →
      find_image_package sbom.packages img.digest = none →
      update_image_sbom c img sbom =
        (some Err.packageNotFound,
         { sbom with name := make_reference c.repository img.digest })) := by
  constructor
  · intro c idx sbom hv hf
    simp only [update_index_image_sbom, hv, if_pos, hf]
  · intro c img sbom hv hf
    simp only [update_image_sbom, hv, if_pos, hf]

/-- Witness for C9: a document with one package whose checksum matches
neither target digest, in both variants. -/
theorem update_sbom_not_found_after_rename_witness :
    update_index_image_sbom ⟨"r/a", ImageOrIndex.index ⟨"sha256:dd", []⟩, []⟩
        ⟨"sha256:dd", []⟩
        ⟨"SPDX-2.3", "old", [⟨some [⟨"SHA256", "zz"⟩], [], "pkg"⟩], "o"⟩
      = (some Err.packageNotFound,
         ⟨"SPDX-2.3", "r/a@sha256:dd", [⟨some [⟨"SHA256", "zz"⟩], [], "pkg"⟩], "o"⟩)
    ∧ update_image_sbom ⟨"r/a", ImageOrIndex.image ⟨"sha256:aa"⟩, []⟩
        ⟨"sha256:aa"⟩
        ⟨"SPDX-2.3", "old", [⟨some [⟨"SHA256", "zz"⟩], [], "pkg"⟩], "o"⟩
      = (some Err.packageNotFound,
         ⟨"SPDX-2.3", "r/a@sha256:aa", [⟨some [⟨"SHA256", "zz"⟩], [], "pkg"⟩], "o"⟩) :=
  ⟨update_sbom_not_found_after_rename.1 _ _ _ (by decide) (by decide),
   update_sbom_not_found_after_rename.2 _ _ _ (by decide) (by decide)⟩

/-- C10: a credential store whose parsed JSON lacks the `"auths"` key is
treated as an empty store (`config.get("auths", {})`): the resolver writes
an empty credential set and returns the "not found" boolean `False`, raising
no parse or configuration error. -/
theorem auth_file_missing_auths_key (reference : String) :
    get_oci_auth_file_of_config reference none = (false, []) := by
  have h : ∀ ks, first_hit [] ks = none :=
    fun ks => first_hit_none [] ks (fun k _ => rfl)
  simp [get_oci_auth_file_of_config, get_oci_auth_file, h]

/-- C8: `construct_image` classifies a fetched manifest by media type:
single-manifest media types yield a leaf `Image` with the given digest;
index/manifest-list media types yield an `IndexImage` whose children are one
`Image` per listed sub-manifest digest, in listed order, with no further
fetch per child; any other media type is a fatal error (the `assert False`,
the spec's `UnsupportedMediaType`) rather than being silently dropped. -/
theorem construct_image_classification (d : String) (m : Manifest) :
    ((m.mediaType = "application/vnd.oci.image.manifest.v1+json"
        ∨ m.mediaType = "application/vnd.docker.distribution.manifest.v2+json") →
      construct_image d m = Except.ok (ImageOrIndex.image ⟨d⟩))
    ∧ ((m.mediaType = "application/vnd.oci.image.index.v1+json"
        ∨ m.mediaType = "application/vnd.docker.distribution.manifest.list.v2+json") →
      construct_image d m = Except.ok (ImageOrIndex.index
        ⟨d, m.manifests.map (fun s => ⟨s.digest⟩)⟩))
    ∧ ((m.mediaType ≠ "application/vnd.oci.image.manifest.v1+json"
        ∧ m.mediaType ≠ "application/vnd.docker.distribution.manifest.v2+json"
        ∧ m.mediaType ≠ "application/vnd.oci.image.index.v1+json"
        ∧ m.mediaType ≠ "application/vnd.docker.distribution.manifest.list.v2+json") →
      construct_image d m = Except.error MediaErr.unsupportedMediaType) := by
  refine ⟨?_, ?_, ?_⟩
  · rintro (h | h) <;> simp [construct_image, h]
  · rintro (h | h) <;> simp [construct_image, h]
  · rintro ⟨h1, h2, h3, h4⟩
    simp [construct_image, h1, h2, h3, h4]

/-- Witness for C8: the three classification branches at concrete
manifests. -/
theorem construct_image_classification_witness :
    construct_image "sha256:aa" ⟨"application/vnd.oci.image.manifest.v1+json", []⟩
      = Except.ok (ImageOrIndex.image ⟨"sha256:aa"⟩)
    ∧ construct_image "sha256:dd"
        ⟨"application/vnd.oci.image.index.v1+json", [⟨"sha256:cc"⟩, ⟨"sha256:ee"⟩]⟩
      = Except.ok (ImageOrIndex.index
          ⟨"sha256:dd", [⟨"sha256:cc"⟩, ⟨"sha256:ee"⟩]⟩)
    ∧ construct_image "sha256:aa" ⟨"application/foreign", []⟩
      = Except.error MediaErr.unsupportedMediaType :=
  ⟨(construct_image_classification "sha256:aa" _).1 (Or.inl rfl),
   by
    have h := (construct_image_classification "sha256:dd"
      ⟨"application/vnd.oci.image.index.v1+json", [⟨"sha256:cc"⟩, ⟨"sha256:ee"⟩]⟩).2.1
      (Or.inl rfl)
    simpa using h,
   (construct_image_classification "sha256:aa" ⟨"application/foreign", []⟩).2.2
     (by decide)⟩

/-- C6: for an image reference `registry/path1/path2@sha256:x`, the
credential scope resolver probes the store exactly at the segment-boundary
path prefixes, longest first — `registry/path1/path2`, then
`registry/path1`, then `registry` — and on the first hit emits the
single-entry artifact `{registry: <matched credential>}`; entries at any
other key (including non-boundary string prefixes) are never consulted. -/
theorem oci_auth_longest_prefix (reference refStr r p1 p2 : String)
    (rest : List String) (auths : List (String × String))
    (h1 : strSplit '@' reference = refStr :: rest)
    (h2 : strSplit '/' refStr = [r, p1, p2]) :
    get_oci_auth_file reference auths =
      match List.lookup (r ++ "/" ++ p1 ++ "/" ++ p2) auths with
      | some token => (true, [(r, token)])
      | none =>
        match List.lookup (r ++ "/" ++ p1) auths with
        | some token => (true, [(r, token)])
        | none =>
          match List.lookup r auths with
          | some token => (true, [(r, token)])
          | none => (false, []) := by
  have hk : candidate_keys [r, p1, p2]
      = [r ++ "/" ++ p1 ++ "/" ++ p2, r ++ "/" ++ p1, r] := by
    simp [candidate_keys, candidateSegsRev, joinSlash, String.append_assoc]
  simp only [get_oci_auth_file, h1, List.headD_cons, h2, hk]
  cases hl1 : List.lookup (r ++ "/" ++ p1 ++ "/" ++ p2) auths with
  | some t => simp [first_hit, hl1]
  | none =>
    cases hl2 : List.lookup (r ++ "/" ++ p1) auths with
    | some t => simp [first_hit, hl1, hl2]
    | none =>
      cases hl3 : List.lookup r auths with
      | some t => simp [first_hit, hl1, hl2, hl3]
      | none => simp [first_hit, hl1, hl2, hl3]

/-- Witness for C6: with entries at all three boundary prefixes, the most
specific one is selected and keyed under the bare registry. -/
theorem oci_auth_longest_prefix_witness :
    get_oci_auth_file "reg.io/team/app@sha256:abc"
        [("reg.io/team/app", "tok2"), ("reg.io/team", "tok1"), ("reg.io", "tok0")]
      = (true, [("reg.io", "tok2")]) := by
  have h := oci_auth_longest_prefix "reg.io/team/app@sha256:abc" "reg.io/team/app"
    "reg.io" "team" "app" ["sha256:abc"]
    [("reg.io/team/app", "tok2"), ("reg.io/team", "tok1"), ("reg.io", "tok0")]
    (by decide) (by decide)
  rw [h]
  decide

/-- C7: when no segment-boundary path prefix of the reference (including the
bare registry) has a store entry, the resolver emits an empty credential set
and returns the "not found" boolean `false`.  In the model the function is
total, mirroring that this case raises nothing in the source (the only
raise in `get_oci_auth_file` is the missing-config-file check, excluded by
the claim's "readable, well-formed store" premise). -/
theorem oci_auth_no_match (reference : String) (auths : List (String × String))
    (h : ∀ k ∈ candidate_keys (strSplit '/' ((strSplit '@' reference).headD "")),
      List.lookup k auths = none) :
    get_oci_auth_file reference auths = (false, []) := by
  simp only [get_oci_auth_file]
  rw [first_hit_none auths _ h]

/-- Witness for C7: a store holding an unrelated registry and a
non-boundary string prefix of the path matches nothing. -/
theorem oci_auth_no_match_witness :
    get_oci_auth_file "reg.io/team/app@sha256:abc"
        [("other.io", "t"), ("reg.io/te", "u")]
      = (false, []) :=
  oci_auth_no_match "reg.io/team/app@sha256:abc"
    [("other.io", "t"), ("reg.io/te", "u")] (by decide)

/-- C4 is a code bug: for a loaded document with `bomFormat == "CycloneDX"`,
the orchestrator's dispatch (`update_component_sbom.update_sbom`) completes
as a silent no-op — the CycloneDX branch is `pass` and the unchanged
document is written back — for every `specVersion`; and
`handlers.get_handler` returns `None` for any `specVersion` other than
`"1.6"` and raises `NotImplementedError` (not `UnsupportedSBOMFormat`) for
`"1.6"`.  No path surfaces the `UnsupportedSBOMFormat` failure the claim
requires.  This theorem evaluates both dispatch sites at the failing
inputs. -/
theorem cyclonedx_dispatch_silent_noop :
    dispatch_update_sbom ⟨none, some "CycloneDX", some "1.4"⟩
      = DispatchOutcome.silentNoOp
    ∧ dispatch_update_sbom ⟨none, some "CycloneDX", some "1.6"⟩
      = DispatchOutcome.silentNoOp
    ∧ get_handler ⟨none, some "CycloneDX", some "1.4"⟩ = HandlerResult.noHandler
    ∧ get_handler ⟨none, some "CycloneDX", some "1.6"⟩
      = HandlerResult.notImplementedError := by
  decide

/-! ## Further list helpers for the index-variant proofs -/

theorem getElem_map_checksum (pkgs : List Package) (i : Nat) :
    (pkgs.map extract_sha256_checksum)[i]? = (pkgs[i]?).map extract_sha256_checksum := by
  induction pkgs generalizing i with
  | nil => simp
  | cons x xs ih => cases i <;> simp [ih]

theorem map_checksum_set_rewrite (pkgs : List Package) (i : Nat) (p : Package)
    (rs : List ExternalRef) (hp : pkgs[i]? = some p) :
    (pkgs.set i { p with externalRefs := rs }).map extract_sha256_checksum
      = pkgs.map extract_sha256_checksum := by
  rw [List.map_set]
  apply set_self_of_getElem
  rw [getElem_map_checksum, hp]
  simp [rewriting_keeps_checksum]

theorem getElem?_set_same {α : Type} (l : List α) (i : Nat) (v w : α)
    (h : l[i]? = some v) : (l.set i w)[i]? = some w := by
  induction l generalizing i with
  | nil => simp at h
  | cons x xs ih =>
    cases i with
    | zero => simp
    | succ n => simp only [List.getElem?_cons_succ] at h; simpa using ih n h

theorem getElem?_set_other {α : Type} (l : List α) (i j : Nat) (w : α)
    (h : j ≠ i) : (l.set i w)[j]? = l[j]? := by
  induction l generalizing i j with
  | nil => simp
  | cons x xs ih =>
    cases i with
    | zero => cases j with
      | zero => exact absurd rfl h
      | succ m => simp
    | succ n =>
      cases j with
      | zero => simp
      | succ m => simpa using ih n m (by omega)

/-! ## Concrete sample inputs used by witnesses and counterexamples -/

def sampleRepo : String := "reg.io/ns/app"

def sampleIdx : IndexImage := ⟨"sha256:dd", [⟨"sha256:cc"⟩]⟩

/-- Index component with two tags, of which only `"1.0-20230101"` matches
the unique-tag pattern. -/
def sampleCompIdx : Component :=
  ⟨sampleRepo, ImageOrIndex.index sampleIdx, ["latest", "1.0-20230101"]⟩

/-- Index component with a single unique-pattern tag. -/
def sampleCompIdx1 : Component :=
  ⟨sampleRepo, ImageOrIndex.index sampleIdx, ["1.0-20230101"]⟩

/-- The package of the index image itself (checksum = index digest). -/
def samplePkg0 : Package :=
  ⟨some [⟨"SHA256", "dd"⟩],
   [mk_purl_ref (construct_purl sampleRepo "sha256:dd")], "i"⟩

/-- The package of the child image (checksum = child digest), whose two
original references carry the index purl (with `arch`) and the child purl. -/
def samplePkg1 : Package :=
  ⟨some [⟨"SHA256", "cc"⟩],
   [mk_purl_ref (construct_purl sampleRepo "sha256:dd" (some "amd64")),
    mk_purl_ref (construct_purl sampleRepo "sha256:cc" (some "amd64"))], "c"⟩

def sampleDocIdx : Document := ⟨"SPDX-2.3", "old", [samplePkg0, samplePkg1], "o"⟩

def sampleImg : Image := ⟨"sha256:aa"⟩

def sampleCompImg : Component :=
  ⟨sampleRepo, ImageOrIndex.image sampleImg, ["latest", "1.0-20230101"]⟩

/-- A leaf package whose checksum matches the image digest but whose
original purl names a different digest. -/
def samplePkgLeaf : Package :=
  ⟨some [⟨"SHA256", "aa"⟩],
   [mk_purl_ref (construct_purl sampleRepo "sha256:zz")], "p"⟩

def sampleDocImg : Document := ⟨"SPDX-2.3", "old", [samplePkgLeaf], "o"⟩

/-- C1 as stated is false: the handler builds the references from
`component.unique_tag` — a single optional tag — not one purl per tag in
`component.tags`.  With the two-tag component the rewritten index package
holds exactly one reference, not two; and in the leaf variant the purl
version is the digest taken from the package's original first reference
(`sha256:zz`), not `image.digest`. -/
theorem single_reference_counterexample :
    (update_index_image_sbom sampleCompIdx sampleIdx sampleDocIdx).1 = none
    ∧ ((update_index_image_sbom sampleCompIdx sampleIdx sampleDocIdx).2.packages[0]?).map
        (fun p => p.externalRefs.length) = some 1
    ∧ sampleCompIdx.tags.length = 2
    ∧ ((update_index_image_sbom sampleCompIdx sampleIdx sampleDocIdx).2.packages[0]?).map
        (fun p => p.externalRefs.length) ≠ some sampleCompIdx.tags.length
    ∧ (update_image_sbom sampleCompImg sampleImg sampleDocImg).1 = none
    ∧ ((update_image_sbom sampleCompImg sampleImg sampleDocImg).2.packages[0]?).map
        (fun p => p.externalRefs.map (fun r => r.referenceLocator.version))
      = some ["sha256:zz"]
    ∧ sampleImg.digest = "sha256:aa" := by
  decide

/-- C1 amended: after a successful `updateDocument`, the package found by
the target digest carries exactly one freshly built purl reference — from
`(repository, index.digest, component.unique_tag)` in the index variant,
and from `(repository, digest of the package's original first purl,
component.unique_tag)` in the leaf-image variant — with no architecture
qualifier in either case. -/
theorem update_sbom_single_reference :
    (∀ (c : Component) (idx : IndexImage) (sbom sbom' : Document) (i : Nat),
      update_index_image_sbom c idx sbom = (none, sbom') →
      find_image_package sbom.packages idx.digest = some i →
      ∃ p, sbom.packages[i]? = some p ∧
        sbom'.packages[i]? = some { p with externalRefs :=
          [mk_purl_ref (construct_purl c.repository idx.digest none c.unique_tag)] })
    ∧ (∀ (c : Component) (img : Image) (sbom sbom' : Document) (i : Nat),
      update_image_sbom c img sbom = (none, sbom') →
      find_image_package sbom.packages img.digest = some i →
      ∃ p r0, sbom.packages[i]? = some p ∧ p.externalRefs[0]? = some r0 ∧
        sbom'.packages[i]? = some { p with externalRefs :=
          [mk_purl_ref (construct_purl c.repository
            (get_purl_digest r0.referenceLocator) none c.unique_tag)] }) := by
  constructor
  · intro c idx sbom sbom' i h hf
    obtain ⟨hv, i', p, hf', hp, hnone, hdoc⟩ := update_index_success_elim c idx sbom sbom' h
    rw [hf] at hf'
    cases hf'
    refine ⟨p, hp, ?_⟩
    subst hdoc
    have hp1 : (sbom.packages.set i { p with externalRefs :=
        [mk_purl_ref (construct_purl c.repository idx.digest none c.unique_tag)] })[i]?
        = some { p with externalRefs :=
          [mk_purl_ref (construct_purl c.repository idx.digest none c.unique_tag)] } :=
      getElem?_set_same _ _ _ _ hp
    cases hrel : is_relevant { p with externalRefs :=
        [mk_purl_ref (construct_purl c.repository idx.digest none c.unique_tag)] } idx with
    | true =>
      obtain ⟨r0, r1, _, h1, _⟩ := update_packages_rewritten c idx _ i _ hnone hp1 hrel
      simp at h1
    | false =>
      exact update_packages_untouched c idx _ i _ hnone hp1 hrel
  · intro c img sbom sbom' i h hf
    obtain ⟨hv, i', p, r0, hf', hp, h0, hdoc⟩ := update_image_success_elim c img sbom sbom' h
    rw [hf] at hf'
    cases hf'
    refine ⟨p, r0, hp, h0, ?_⟩
    subst hdoc
    exact getElem?_set_same _ _ _ _ hp

/-- Witness for the amended C1 at the concrete two-tag samples, in both
variants. -/
theorem update_sbom_single_reference_witness :
    (∃ p, sampleDocIdx.packages[0]? = some p ∧
      (update_index_image_sbom sampleCompIdx sampleIdx sampleDocIdx).2.packages[0]?
        = some { p with externalRefs :=
            [mk_purl_ref (construct_purl sampleCompIdx.repository sampleIdx.digest
              none sampleCompIdx.unique_tag)] })
    ∧ (∃ p r0, sampleDocImg.packages[0]? = some p ∧ p.externalRefs[0]? = some r0 ∧
      (update_image_sbom sampleCompImg sampleImg sampleDocImg).2.packages[0]?
        = some { p with externalRefs :=
            [mk_purl_ref (construct_purl sampleCompImg.repository
              (get_purl_digest r0.referenceLocator) none sampleCompImg.unique_tag)] }) :=
  ⟨update_sbom_single_reference.1 sampleCompIdx sampleIdx sampleDocIdx
      (update_index_image_sbom sampleCompIdx sampleIdx sampleDocIdx).2 0
      (by decide) (by decide),
   update_sbom_single_reference.2 sampleCompImg sampleImg sampleDocImg
      (update_image_sbom sampleCompImg sampleImg sampleDocImg).2 0
      (by decide) (by decide)⟩

/-- C2 as stated is false: for a relevant package the handler does not build
one purl per tag carrying `(repository, child digest, tag, arch)`. It builds
exactly two references — the first naming the *index* digest and carrying
the `arch` taken from the package's position-0 reference, the second naming
the digest taken from the package's position-1 reference with *no* `arch`.
With a single tag the claim predicts one reference; the code produces
two, and neither matches the predicted one. -/
theorem relevant_rewrite_counterexample :
    (update_index_image_sbom sampleCompIdx1 sampleIdx sampleDocIdx).1 = none
    ∧ ((update_index_image_sbom sampleCompIdx1 sampleIdx sampleDocIdx).2.packages[1]?).map
        Package.externalRefs
      = some [mk_purl_ref (construct_purl sampleRepo "sha256:dd" (some "amd64")
                (some "1.0-20230101")),
              mk_purl_ref (construct_purl sampleRepo "sha256:cc" none
                (some "1.0-20230101"))]
    ∧ sampleCompIdx1.tags.length = 1
    ∧ ((update_index_image_sbom sampleCompIdx1 sampleIdx sampleDocIdx).2.packages[1]?).map
        Package.externalRefs
      ≠ some [mk_purl_ref (construct_purl sampleRepo "sha256:cc" (some "amd64")
                (some "1.0-20230101"))] := by
  decide

/-- C2 amended: in the index variant, every package other than the one found
by the index digest whose checksum equals some child digest is rewritten to
exactly two references: the first from `(repository, index.digest,
arch-of-original-position-0-reference, unique_tag)` — the arch is taken from
the package's first reference unconditionally, not from a reference whose
purl version equals the index digest — and the second from `(repository,
version-of-original-position-1-reference, unique_tag)` with no arch;
packages whose checksum matches no child digest are left untouched. -/
theorem update_index_relevant_rewrite (c : Component) (idx : IndexImage)
    (sbom sbom' : Document) (i j : Nat) (p : Package)
    (h : update_index_image_sbom c idx sbom = (none, sbom'))
    (hf : find_image_package sbom.packages idx.digest = some i)
    (hne : j ≠ i)
    (hj : sbom.packages[j]? = some p) :
    (is_relevant p idx = true →
      ∃ r0 r1, p.externalRefs[0]? = some r0 ∧ p.externalRefs[1]? = some r1 ∧
        sbom'.packages[j]? = some { p with externalRefs :=
          [mk_purl_ref (construct_purl c.repository idx.digest
            (get_purl_arch r0.referenceLocator) c.unique_tag),
           mk_purl_ref (construct_purl c.repository
            (get_purl_digest r1.referenceLocator) none c.unique_tag)] })
    ∧ (is_relevant p idx = false → sbom'.packages[j]? = some p) := by
  obtain ⟨hv, i', q, hf', hq, hnone, hdoc⟩ := update_index_success_elim c idx sbom sbom' h
  rw [hf] at hf'
  cases hf'
  subst hdoc
  have hj1 : (sbom.packages.set i { q with externalRefs :=
      [mk_purl_ref (construct_purl c.repository idx.digest none c.unique_tag)] })[j]?
      = some p := by
    rw [getElem?_set_other _ _ _ _ hne]
    exact hj
  constructor
  · intro hrel
    exact update_packages_rewritten c idx _ j p hnone hj1 hrel
  · intro hirr
    exact update_packages_untouched c idx _ j p hnone hj1 hirr

/-- Witness for the amended C2: the child package of the concrete sample is
rewritten to the two predicted references, and a fresh irrelevant package
stays untouched. -/
theorem update_index_relevant_rewrite_witness :
    (∃ r0 r1, samplePkg1.externalRefs[0]? = some r0
      ∧ samplePkg1.externalRefs[1]? = some r1
      ∧ (update_index_image_sbom sampleCompIdx sampleIdx sampleDocIdx).2.packages[1]?
        = some { samplePkg1 with externalRefs :=
            [mk_purl_ref (construct_purl sampleCompIdx.repository sampleIdx.digest
              (get_purl_arch r0.referenceLocator) sampleCompIdx.unique_tag),
             mk_purl_ref (construct_purl sampleCompIdx.repository
              (get_purl_digest r1.referenceLocator) none sampleCompIdx.unique_tag)] }) :=
  (update_index_relevant_rewrite sampleCompIdx sampleIdx sampleDocIdx
      (update_index_image_sbom sampleCompIdx sampleIdx sampleDocIdx).2 0 1 samplePkg1
      (by decide) (by decide) (by decide) (by decide)).1 (by decide)

/-- C3: `updateDocument` is idempotent — on every (component, image,
document) triple on which it succeeds, in either variant, running it a
second time on the result succeeds and returns the same document: the
lookup keys (checksums) are never modified, and re-deriving the arch and
digest from the freshly written references reproduces them exactly. -/
theorem update_sbom_idempotent (c : Component) (img : ImageOrIndex)
    (sbom sbom' : Document)
    (h : update_sbom c img sbom = (none, sbom')) :
    update_sbom c img sbom' = (none, sbom') := by
  cases img with
  | image im =>
    simp only [update_sbom] at h ⊢
    obtain ⟨hv, i, p, r0, hf, hp, h0, hdoc⟩ := update_image_success_elim c im sbom sbom' h
    have hpack : sbom'.packages = sbom.packages.set i { p with externalRefs :=
        [mk_purl_ref (construct_purl c.repository (get_purl_digest r0.referenceLocator)
          none c.unique_tag)] } := by rw [hdoc]
    have hver' : sbom'.spdxVersion = supported_version := by rw [hdoc]; exact hv
    have hmap : sbom'.packages.map extract_sha256_checksum
        = sbom.packages.map extract_sha256_checksum := by
      rw [hpack]; exact map_checksum_set_rewrite _ _ _ _ hp
    have hf' : find_image_package sbom'.packages im.digest = some i := by
      rw [find_image_package_congr _ _ _ hmap]; exact hf
    have hp' : sbom'.packages[i]? = some { p with externalRefs :=
        [mk_purl_ref (construct_purl c.repository (get_purl_digest r0.referenceLocator)
          none c.unique_tag)] } := by
      rw [hpack]; exact getElem?_set_same _ _ _ _ hp
    have heq := update_image_sbom_eq c im sbom' i _ _ hver' hf' hp' rfl
    rw [heq, Prod.mk.injEq]
    refine ⟨rfl, ?_⟩
    rw [hpack, List.set_set, hdoc]
    rfl
  | index idx =>
    simp only [update_sbom] at h ⊢
    obtain ⟨hv, i, p, hf, hp, hnone, hdoc⟩ := update_index_success_elim c idx sbom sbom' h
    have hpack : sbom'.packages = (update_packages c idx (sbom.packages.set i
        { p with externalRefs :=
          [mk_purl_ref (construct_purl c.repository idx.digest none c.unique_tag)] })).2 := by
      rw [hdoc]
    have hver' : sbom'.spdxVersion = supported_version := by rw [hdoc]; exact hv
    have hmap : sbom'.packages.map extract_sha256_checksum
        = sbom.packages.map extract_sha256_checksum := by
      rw [hpack, update_packages_map_checksum]
      exact map_checksum_set_rewrite _ _ _ _ hp
    have hf' : find_image_package sbom'.packages idx.digest = some i := by
      rw [find_image_package_congr _ _ _ hmap]; exact hf
    have hp1 : (sbom.packages.set i { p with externalRefs :=
        [mk_purl_ref (construct_purl c.repository idx.digest none c.unique_tag)] })[i]?
        = some { p with externalRefs :=
          [mk_purl_ref (construct_purl c.repository idx.digest none c.unique_tag)] } :=
      getElem?_set_same _ _ _ _ hp
    have hrelP : is_relevant { p with externalRefs :=
        [mk_purl_ref (construct_purl c.repository idx.digest none c.unique_tag)] } idx
        = false := by
      cases hrel : is_relevant { p with externalRefs :=
          [mk_purl_ref (construct_purl c.repository idx.digest none c.unique_tag)] } idx with
      | false => rfl
      | true =>
        obtain ⟨r0, r1, _, h1, _⟩ := update_packages_rewritten c idx _ i _ hnone hp1 hrel
        simp at h1
    have hp2 : sbom'.packages[i]? = some { p with externalRefs :=
        [mk_purl_ref (construct_purl c.repository idx.digest none c.unique_tag)] } := by
      rw [hpack]
      exact update_packages_untouched c idx _ i _ hnone hp1 hrelP
    have hFIX : ∀ q, q ∈ sbom'.packages → is_relevant q idx = true →
        update_relevant_package c idx q = Except.ok q := by
      intro q hq hrel
      obtain ⟨j, hjq⟩ := List.mem_iff_getElem?.mp hq
      rw [hpack] at hjq
      have hjlt : j < (sbom.packages.set i { p with externalRefs :=
          [mk_purl_ref (construct_purl c.repository idx.digest none c.unique_tag)] }).length := by
        have hj2 := (List.getElem?_eq_some.mp hjq).1
        have hlen := congrArg List.length (update_packages_map_checksum c idx
          (sbom.packages.set i { p with externalRefs :=
            [mk_purl_ref (construct_purl c.repository idx.digest none c.unique_tag)] }))
        simp only [List.length_map] at hlen
        omega
      obtain ⟨qOrig, hjO⟩ : ∃ qo, (sbom.packages.set i { p with externalRefs :=
          [mk_purl_ref (construct_purl c.repository idx.digest none c.unique_tag)] })[j]?
          = some qo :=
        ⟨_, List.getElem?_eq_getElem hjlt⟩
      cases hrelO : is_relevant qOrig idx with
      | false =>
        have hsame := update_packages_untouched c idx _ j qOrig hnone hjO hrelO
        rw [hjq] at hsame
        cases hsame
        rw [hrelO] at hrel
        exact absurd hrel (by simp)
      | true =>
        obtain ⟨r0, r1, hq0, hq1, hres⟩ :=
          update_packages_rewritten c idx _ j qOrig hnone hjO hrelO
        rw [hjq] at hres
        cases hres
        rfl
    have hfix := update_packages_fixpoint c idx sbom'.packages hFIX
    have hYeq : sbom'.packages.set i { { p with externalRefs :=
        [mk_purl_ref (construct_purl c.repository idx.digest none c.unique_tag)] }
        with externalRefs :=
          [mk_purl_ref (construct_purl c.repository idx.digest none c.unique_tag)] }
        = sbom'.packages := by
      exact set_self_of_getElem _ _ _ hp2
    have heq := update_index_image_sbom_eq c idx sbom' i _ hver' hf' hp2
    rw [heq]
    rw [hYeq, hfix, Prod.mk.injEq]
    refine ⟨rfl, ?_⟩
    rw [hdoc]

/-- Witness for C3: the concrete multi-arch sample succeeds and the second
run reproduces the first run's output exactly. -/
theorem update_sbom_idempotent_witness :
    update_sbom sampleCompIdx (ImageOrIndex.index sampleIdx)
        (update_sbom sampleCompIdx (ImageOrIndex.index sampleIdx) sampleDocIdx).2
      = (none, (update_sbom sampleCompIdx (ImageOrIndex.index sampleIdx) sampleDocIdx).2) :=
  update_sbom_idempotent sampleCompIdx (ImageOrIndex.index sampleIdx) sampleDocIdx
    (update_sbom sampleCompIdx (ImageOrIndex.index sampleIdx) sampleDocIdx).2 (by decide)

end Sbom
